import Mathlib

/-!
# GateService (components/gate/GateService.go)

A shallow embedding of the gate service of goworld: the client-proxy registry
`clientProxies`, the per-attribute filter trees `filterTrees`, the dispatcher
packet handler and the termination flag.

Conventions of the embedding

* A Go `map[K]V` is an association list (`GoMap`); `m[k]` is `GoMap.lookup`,
  `m[k] = v` is `GoMap.store`, `delete(m, k)` is `GoMap.remove`, and
  `for k, v := range m` walks the entries in list order (Go leaves the order
  unspecified; every loop of this file touches, for distinct keys, distinct
  filter trees).
* The registry stores the `ClientProxy` record itself where Go stores a
  `*ClientProxy`.  A handler that mutates the proxy it is given returns the
  mutated record, and `HandleDispatcherClientPacket`, which obtained the
  pointer from `clientProxies[clientid]`, puts the record back under that key.
* A `*FilterTree` is held by `filterTrees` alone: a tree changed through its
  pointer is stored back under its attribute name.
* Effects on collaborators (sockets, the dispatcher client, the log, the
  process) are returned as a list of `Event`s in program order.  Debug logging
  guarded by `consts.DEBUG_*` flags, and the operation monitor, are left out.
* Locks are not modelled: each handler is one sequential run.  The two
  critical sections of `onClientProxyClose` are kept as two separate steps.
-/

namespace GateService

/-! ## Go maps -/

/-- A Go map, as the list of its entries. -/
abbrev GoMap (κ ν : Type) := List (κ × ν)

namespace GoMap

variable {κ ν : Type} [DecidableEq κ]

/-- The value stored under key k, as in the Go expression `v, ok := m[k]`. -/
def lookup : GoMap κ ν → κ → Option ν
  | [], _ => none
  | (k', v) :: m, k => if k' = k then some v else lookup m k

/-- The Go statement `m[k] = v`: overwrite the entry of k, or add one. -/
def store : GoMap κ ν → κ → ν → GoMap κ ν
  | [], k, v => [(k, v)]
  | (k', v') :: m, k, v => if k' = k then (k, v) :: m else (k', v') :: store m k v

/-- The Go statement `delete(m, k)`. -/
def remove (m : GoMap κ ν) (k : κ) : GoMap κ ν :=
  m.filter (fun e => decide (e.1 ≠ k))

end GoMap

/-! ## Collaborators that are not part of GateService.go -/

/-- Modelled from the spec: `common.ClientID`, the connection identity, "an
opaque, globally unique value assigned at accept time"; a Go string type. -/
abbrev ClientID := String

/-- Modelled from the spec: `net.Conn`, the accepted transport connection; only
its handle matters here (it can be closed). -/
abbrev Conn := Nat

/-- Modelled from the spec: one field of a packet payload.  The wire protocol
carries a 16-bit session tag, a connection identity and length-prefixed
variable-length strings. -/
inductive Field where
  | uint16 (v : Nat)
  | clientID (id : ClientID)
  | varStr (s : String)
  deriving DecidableEq, Repr

/-- Modelled from the spec: `netutil.Packet`, a binary message with a payload
cursor.  The record holds the part of the payload that is still to be read. -/
structure Packet where
  payload : List Field
  deriving DecidableEq, Repr

namespace Packet

/-- Modelled from the spec: `Packet.ReadUint16`, reading the 16-bit session tag
at the cursor and advancing it; `none` when the payload has no such field. -/
def ReadUint16 : Packet → Option (Nat × Packet)
  | ⟨Field.uint16 v :: rest⟩ => some (v, ⟨rest⟩)
  | _ => none

/-- Modelled from the spec: `Packet.ReadClientID`, reading a connection
identity at the cursor and advancing it. -/
def ReadClientID : Packet → Option (ClientID × Packet)
  | ⟨Field.clientID id :: rest⟩ => some (id, ⟨rest⟩)
  | _ => none

/-- Modelled from the spec: `Packet.ReadVarStr`, reading a length-prefixed
string at the cursor and advancing it. -/
def ReadVarStr : Packet → Option (String × Packet)
  | ⟨Field.varStr s :: rest⟩ => some (s, ⟨rest⟩)
  | _ => none

end Packet

/-- Modelled from the spec: `FilterTree`, the attribute filter index of one
attribute name, "an inverted index mapping attribute value to the set of
connection identities currently holding that value".  The set of
(value, identity) pairs is kept as a list. -/
structure FilterTree where
  items : List (String × ClientID)
  deriving DecidableEq, Repr

/-- Modelled from the spec: `NewFilterTree`, the empty index created lazily on
the first use of an attribute name. -/
def NewFilterTree : FilterTree := ⟨[]⟩

namespace FilterTree

/-- Modelled from the spec: `FilterTree.Insert`, "adds identity to the bucket
for value"; a bucket is a set, so inserting a present pair changes nothing. -/
def Insert (ft : FilterTree) (id : ClientID) (val : String) : FilterTree :=
  if (val, id) ∈ ft.items then ft else ⟨(val, id) :: ft.items⟩

/-- Modelled from the spec: `FilterTree.Remove`, "removes identity from that
bucket; removing an absent entry is a no-op". -/
def Remove (ft : FilterTree) (id : ClientID) (val : String) : FilterTree :=
  ⟨ft.items.filter (fun e => decide (e ≠ (val, id)))⟩

/-- Modelled from the spec: `FilterTree.Visit`, which "invokes fn once for every
identity currently in the bucket"; the identities handed to the callback, in
visiting order. -/
def Visit (ft : FilterTree) (val : String) : List ClientID :=
  (ft.items.filter (fun e => decide (e.1 = val))).map (fun e => e.2)

end FilterTree

/-- Modelled from the spec: `ClientProxy`, the connection handle, declared
outside GateService.go.  The record keeps the two fields that GateService.go
reads and writes: the identity `clientid` and the attribute map `filterProps`
("at most one value per name per connection"). -/
structure ClientProxy where
  clientid : ClientID
  filterProps : GoMap String String
  deriving DecidableEq, Repr

/-- Modelled from the spec: `newClientProxy`.  The identity is assigned at
accept time (it is a parameter here) and the attribute map starts empty. -/
def newClientProxy (_conn : Conn) (clientid : ClientID) : ClientProxy :=
  { clientid := clientid, filterProps := [] }

/-- The message-type constants of package `proto` that GateService.go names.
`proto.MsgType_t` is an unsigned 16-bit integer; the constants are only
compared. -/
structure Proto where
  MT_REDIRECT_TO_GATEPROXY_MSG_TYPE_START : Nat
  MT_REDIRECT_TO_GATEPROXY_MSG_TYPE_STOP : Nat
  MT_SET_CLIENTPROXY_FILTER_PROP : Nat
  MT_CLEAR_CLIENTPROXY_FILTER_PROPS : Nat
  MT_CALL_FILTERED_CLIENTS : Nat
  deriving DecidableEq, Repr

/-- What a handler does to its collaborators. -/
inductive Event where
  /-- The call `conn.Close()` on a refused connection. -/
  | connClose (conn : Conn)
  /-- The call `SendNotifyClientConnected(clientid)` on the dispatcher client. -/
  | notifyClientConnected (clientid : ClientID)
  /-- The call `SendNotifyClientDisconnected(clientid)` on the dispatcher client. -/
  | notifyClientDisconnected (clientid : ClientID)
  /-- The call `cp.serve()`: the connection starts serving client traffic. -/
  | serve (clientid : ClientID)
  /-- The call `clientproxy.SendPacket(packet)` on the proxy with this identity. -/
  | sendPacket (clientid : ClientID) (packet : Packet)
  /-- The call `cp.Close()` during termination. -/
  | proxyClose (clientid : ClientID)
  /-- The call `gwlog.Panicf("unknown msg type")`: the protocol violation report. -/
  | panicf (msgtype : Nat)
  /-- The call `os.Exit(code)`. -/
  | exit (code : Nat)
  /-- The call `item.packet.Release()`. -/
  | packetRelease (packet : Packet)
  /-- The call `gs.terminated.Signal()`. -/
  | terminatedSignal
  deriving DecidableEq, Repr

/-- Modelled from the spec: `gwlog.Panicf`, which is not part of
GateService.go.  The unknown message type is "logged as severe" and is "fatal
only in a strict/debug operating mode": the call reports the violation and
control comes back to the caller. -/
def gwlog_Panicf (msgtype : Nat) : List Event :=
  [Event.panicf msgtype]

end GateService

/-! ## The service -/

/-- The fields of `GateService` that carry state: the registry, the filter
trees by attribute name, and the terminating flag. -/
structure GateService where
  clientProxies : GateService.GoMap GateService.ClientID GateService.ClientProxy
  filterTrees : GateService.GoMap String GateService.FilterTree
  terminating : Bool
  deriving DecidableEq, Repr

namespace GateService

/-- The constructor `newGateService`: empty registry, no filter tree, not
terminating. -/
def newGateService : GateService :=
  { clientProxies := [], filterTrees := [], terminating := false }

/-- The method `GateService.ServeTCPConnection`, up to the call of `cp.serve()`.
The identity that `newClientProxy` assigns is the parameter `clientid`. -/
def ServeTCPConnection (gs : GateService) (conn : Conn) (clientid : ClientID) :
    GateService × List Event :=
  if gs.terminating then
    (gs, [Event.connClose conn])
  else
    let cp := newClientProxy conn clientid
    ({ gs with clientProxies := gs.clientProxies.store cp.clientid cp },
      [Event.notifyClientConnected cp.clientid, Event.serve cp.clientid])

/-- The first critical section of `onClientProxyClose` (under
`clientProxiesLock`): `delete(gs.clientProxies, cp.clientid)`. -/
def onClientProxyClose_dropFromRegistry (gs : GateService) (cp : ClientProxy) : GateService :=
  { gs with clientProxies := gs.clientProxies.remove cp.clientid }

/-- The second critical section of `onClientProxyClose` (under
`filterTreesLock`): for every `key, val` of `cp.filterProps`, when
`gs.filterTrees[key]` is not nil, `ft.Remove(cp.clientid, val)`. -/
def onClientProxyClose_dropFilterProps (gs : GateService) (cp : ClientProxy) : GateService :=
  let filterTrees := cp.filterProps.foldl
    (fun trees kv =>
      match trees.lookup kv.1 with
      | some ft => trees.store kv.1 (ft.Remove cp.clientid kv.2)
      | none => trees)
    gs.filterTrees
  { gs with filterTrees := filterTrees }

/-- The states of the service after each critical section of
`onClientProxyClose`, in program order. -/
def onClientProxyClose_states (gs : GateService) (cp : ClientProxy) : List GateService :=
  [onClientProxyClose_dropFromRegistry gs cp,
   onClientProxyClose_dropFilterProps (onClientProxyClose_dropFromRegistry gs cp) cp]

/-- The method `GateService.onClientProxyClose`: both critical sections, then the
disconnect notification to the dispatcher. -/
def onClientProxyClose (gs : GateService) (cp : ClientProxy) : GateService × List Event :=
  (onClientProxyClose_dropFilterProps (onClientProxyClose_dropFromRegistry gs cp) cp,
    [Event.notifyClientDisconnected cp.clientid])

/-- The method `GateService.handleSetClientFilterProp`.  Returns the service and the
proxy as the call leaves them, `none` when the payload cannot be read. -/
def handleSetClientFilterProp (gs : GateService) (clientproxy : ClientProxy) (packet : Packet) :
    Option (GateService × ClientProxy) :=
  match packet.ReadVarStr with
  | none => none
  | some (key, packet1) =>
    match packet1.ReadVarStr with
    | none => none
    | some (val, _) =>
      let clientid := clientproxy.clientid
      let ft := match gs.filterTrees.lookup key with
        | some ft => ft
        | none => NewFilterTree
      let ft := match clientproxy.filterProps.lookup key with
        | some oldVal => ft.Remove clientid oldVal
        | none => ft
      let clientproxy := { clientproxy with filterProps := clientproxy.filterProps.store key val }
      let ft := ft.Insert clientid val
      some ({ gs with filterTrees := gs.filterTrees.store key ft }, clientproxy)

/-- The method `GateService.handleClearClientFilterProps`: for every `key, val` of
`clientproxy.filterProps` whose filter tree exists, `ft.Remove(clientid, val)`.
Nothing is read from the packet and the proxy is not written to. -/
def handleClearClientFilterProps (gs : GateService) (clientproxy : ClientProxy)
    (_packet : Packet) : GateService :=
  let clientid := clientproxy.clientid
  let filterTrees := clientproxy.filterProps.foldl
    (fun trees kv =>
      match trees.lookup kv.1 with
      | none => trees
      | some ft => trees.store kv.1 (ft.Remove clientid kv.2))
    gs.filterTrees
  { gs with filterTrees := filterTrees }

/-- The method `GateService.handleCallFilteredClientProxies`: the sends made by the
callback on the identities visited in the filter tree of `key`; identities
with no registered proxy are skipped.  The service state is only read. -/
def handleCallFilteredClientProxies (gs : GateService) (packet : Packet) :
    Option (List Event) :=
  match packet.ReadVarStr with
  | none => none
  | some (key, packet1) =>
    match packet1.ReadVarStr with
    | none => none
    | some (val, packet2) =>
      match gs.filterTrees.lookup key with
      | some ft =>
        some ((ft.Visit val).filterMap (fun clientid =>
          match gs.clientProxies.lookup clientid with
          | some clientproxy => some (Event.sendPacket clientproxy.clientid packet2)
          | none => none))
      | none => some []

/-- The method `GateService.HandleDispatcherClientPacket`.  `DEBUG_MODE` is
`consts.DEBUG_MODE`.  The result is the service after the call and the events
of the call; `none` when the payload cannot be read as the branch needs. -/
def HandleDispatcherClientPacket (proto : Proto) (DEBUG_MODE : Bool) (gs : GateService)
    (msgtype : Nat) (packet : Packet) : Option (GateService × List Event) :=
  if proto.MT_REDIRECT_TO_GATEPROXY_MSG_TYPE_START ≤ msgtype ∧
      msgtype ≤ proto.MT_REDIRECT_TO_GATEPROXY_MSG_TYPE_STOP then
    match packet.ReadUint16 with
    | none => none
    | some (_sid, packet1) =>
      match packet1.ReadClientID with
      | none => none
      | some (clientid, packet2) =>
        match gs.clientProxies.lookup clientid with
        | some clientproxy =>
          if msgtype = proto.MT_SET_CLIENTPROXY_FILTER_PROP then
            match handleSetClientFilterProp gs clientproxy packet2 with
            | none => none
            | some (gs1, clientproxy1) =>
              some ({ gs1 with clientProxies := gs1.clientProxies.store clientid clientproxy1 }, [])
          else if msgtype = proto.MT_CLEAR_CLIENTPROXY_FILTER_PROPS then
            some (handleClearClientFilterProps gs clientproxy packet2, [])
          else
            some (gs, [Event.sendPacket clientproxy.clientid packet2])
        | none =>
          some (gs, [Event.notifyClientDisconnected clientid])
  else if msgtype = proto.MT_CALL_FILTERED_CLIENTS then
    match handleCallFilteredClientProxies gs packet with
    | none => none
    | some events => some (gs, events)
  else
    some (gs, gwlog_Panicf msgtype ++ (if DEBUG_MODE then [Event.exit 2] else []))

/-- A `packetQueueItem`: a packet from the dispatcher client with its type. -/
structure packetQueueItem where
  msgtype : Nat
  packet : Packet
  deriving DecidableEq, Repr

/-- The method `GateService.handlePacketRoutine` on the items the queue delivers, in
arrival order: each item is handled, then its packet is released.  The loop
ends when the process exits; it rests when the queue is empty. -/
def handlePacketRoutine (proto : Proto) (DEBUG_MODE : Bool) :
    GateService → List packetQueueItem → Option (GateService × List Event)
  | gs, [] => some (gs, [])
  | gs, item :: queue =>
    match HandleDispatcherClientPacket proto DEBUG_MODE gs item.msgtype item.packet with
    | none => none
    | some (gs1, events) =>
      if Event.exit 2 ∈ events then some (gs1, events)
      else
        match handlePacketRoutine proto DEBUG_MODE gs1 queue with
        | none => none
        | some (gs2, events2) =>
          some (gs2, events ++ Event.packetRelease item.packet :: events2)

/-- The method `GateService.terminate`: set the flag, close every registered proxy,
signal the one-time condition. -/
def terminate (gs : GateService) : GateService × List Event :=
  ({ gs with terminating := true },
    gs.clientProxies.map (fun e => Event.proxyClose e.2.clientid) ++ [Event.terminatedSignal])

/-! ## Observations on a state -/

/-- The identities in bucket `val` of the filter tree of attribute `name`;
empty when the attribute has no filter tree. -/
def bucket (gs : GateService) (name val : String) : List ClientID :=
  match gs.filterTrees.lookup name with
  | some ft => ft.Visit val
  | none => []

/-- The recorded attribute value of a proxy, as in `clientproxy.filterProps[name]`. -/
def ClientProxy.attr (cp : ClientProxy) (name : String) : Option String :=
  cp.filterProps.lookup name

/-- The service after handling one dispatcher packet; the state is kept when
the handler does not come back with one. -/
def afterPacket (proto : Proto) (DEBUG_MODE : Bool) (gs : GateService)
    (msgtype : Nat) (packet : Packet) : GateService :=
  match HandleDispatcherClientPacket proto DEBUG_MODE gs msgtype packet with
  | some r => r.1
  | none => gs

/-- The states a running service can be in: it starts as `newGateService` and
moves by accepting a connection under an identity that is not registered, by
handling a dispatcher packet, by the set and clear handlers run on a
registered proxy, by the close of a registered proxy, and by `terminate`. -/
inductive Reachable (proto : Proto) (DEBUG_MODE : Bool) : GateService → Prop where
  | fresh : Reachable proto DEBUG_MODE newGateService
  | accept (gs : GateService) (conn : Conn) (clientid : ClientID) :
      Reachable proto DEBUG_MODE gs →
      gs.clientProxies.lookup clientid = none →
      Reachable proto DEBUG_MODE (ServeTCPConnection gs conn clientid).1
  | dispatch (gs : GateService) (msgtype : Nat) (packet : Packet) :
      Reachable proto DEBUG_MODE gs →
      Reachable proto DEBUG_MODE (afterPacket proto DEBUG_MODE gs msgtype packet)
  | setProp (gs : GateService) (cp : ClientProxy) (packet : Packet)
      (gs1 : GateService) (cp1 : ClientProxy) :
      Reachable proto DEBUG_MODE gs →
      gs.clientProxies.lookup cp.clientid = some cp →
      handleSetClientFilterProp gs cp packet = some (gs1, cp1) →
      Reachable proto DEBUG_MODE
        { gs1 with clientProxies := gs1.clientProxies.store cp.clientid cp1 }
  | clearProps (gs : GateService) (cp : ClientProxy) (packet : Packet) :
      Reachable proto DEBUG_MODE gs →
      gs.clientProxies.lookup cp.clientid = some cp →
      Reachable proto DEBUG_MODE (handleClearClientFilterProps gs cp packet)
  | disconnect (gs : GateService) (cp : ClientProxy) :
      Reachable proto DEBUG_MODE gs →
      gs.clientProxies.lookup cp.clientid = some cp →
      Reachable proto DEBUG_MODE (onClientProxyClose gs cp).1
  | terminated (gs : GateService) :
      Reachable proto DEBUG_MODE gs →
      Reachable proto DEBUG_MODE (terminate gs).1

/-- The pair (value, identity) is an entry of the filter tree of `name`. -/
def treeMem (trees : GoMap String FilterTree) (name : String) (e : String × ClientID) : Prop :=
  ∃ ft, trees.lookup name = some ft ∧ e ∈ ft.items

/-- One round of the removal loop of `onClientProxyClose` and
`handleClearClientFilterProps`. -/
def removeOne (clientid : ClientID) (trees : GoMap String FilterTree) (kv : String × String) :
    GoMap String FilterTree :=
  match trees.lookup kv.1 with
  | some ft => trees.store kv.1 (ft.Remove clientid kv.2)
  | none => trees

/-- Every registered proxy is stored under its own identity. -/
def KeysMatch (gs : GateService) : Prop :=
  ∀ id cp, gs.clientProxies.lookup id = some cp → cp.clientid = id

/-- No orphaned index entry: an identity in bucket `val` of the tree of `name`
is registered and its proxy records `name = val`. -/
def NoOrphan (gs : GateService) : Prop :=
  ∀ name val id, id ∈ bucket gs name val →
    ∃ cp, gs.clientProxies.lookup id = some cp ∧ cp.attr name = some val

/-- Every filter tree lists each (value, identity) pair once. -/
def TreesNodup (trees : GoMap String FilterTree) : Prop :=
  ∀ name ft, trees.lookup name = some ft → ft.items.Nodup

/-! ## Worked scenarios -/

/-- An assignment of the message-type constants used by the worked scenarios:
the set and clear types lie inside the redirect range, the call-filtered type
outside of it. -/
def exampleProto : Proto :=
  { MT_REDIRECT_TO_GATEPROXY_MSG_TYPE_START := 1001
    MT_REDIRECT_TO_GATEPROXY_MSG_TYPE_STOP := 1500
    MT_SET_CLIENTPROXY_FILTER_PROP := 1010
    MT_CLEAR_CLIENTPROXY_FILTER_PROPS := 1011
    MT_CALL_FILTERED_CLIENTS := 1501 }

/-- A redirect-range payload: session tag 0, target identity, then the rest. -/
def redirectPacket (clientid : ClientID) (rest : List Field) : Packet :=
  ⟨Field.uint16 0 :: Field.clientID clientid :: rest⟩

/-- The payload of a set-filter-property or call-filtered body: name, value. -/
def nameValue (name val : String) : List Field :=
  [Field.varStr name, Field.varStr val]

/-- Scenario step: set `name = val` on the connection `clientid`. -/
def scenarioSet (gs : GateService) (clientid : ClientID) (name val : String) : GateService :=
  afterPacket exampleProto false gs 1010 (redirectPacket clientid (nameValue name val))

/-- Scenario step: clear the filter properties of the connection `clientid`. -/
def scenarioClear (gs : GateService) (clientid : ClientID) : GateService :=
  afterPacket exampleProto false gs 1011 (redirectPacket clientid [])

/-- Scenario state: C1 accepted, then `zone = forest` set on it. -/
def stateForest : GateService :=
  scenarioSet (ServeTCPConnection newGateService 1 "C1").1 "C1" "zone" "forest"

/-- The proxy record of C1 in `stateForest` and `stateBothForest`. -/
def proxyC1Forest : ClientProxy :=
  { clientid := "C1", filterProps := [("zone", "forest")] }

/-- Scenario state: C1 accepted, `zone = forest` and `team = red` set on it. -/
def stateTwoProps : GateService :=
  scenarioSet stateForest "C1" "team" "red"

/-- Scenario state: C1 and C2 accepted, `zone = forest` set on both. -/
def stateBothForest : GateService :=
  scenarioSet (scenarioSet (ServeTCPConnection (ServeTCPConnection newGateService 1 "C1").1 2
    "C2").1 "C1" "zone" "forest") "C2" "zone" "forest"

/-! ## Lemmas on Go maps and filter trees -/

namespace GoMap

variable {κ ν : Type} [DecidableEq κ]

theorem lookup_store (m : GoMap κ ν) (k k' : κ) (v : ν) :
    (m.store k v).lookup k' = if k = k' then some v else m.lookup k' := by
  induction m with
  | nil => simp [store, lookup]
  | cons e m ih =>
    obtain ⟨a, b⟩ := e
    by_cases h : a = k
    · subst h
      by_cases h' : a = k' <;> simp [store, lookup, h']
    · by_cases h' : a = k'
      · subst h'
        simp [store, lookup, h, Ne.symm h]
      · simp [store, lookup, h, h', ih]

theorem lookup_store_self (m : GoMap κ ν) (k : κ) (v : ν) :
    (m.store k v).lookup k = some v := by
  simp [lookup_store]

theorem lookup_store_ne (m : GoMap κ ν) {k k' : κ} (v : ν) (h : k ≠ k') :
    (m.store k v).lookup k' = m.lookup k' := by
  simp [lookup_store, h]

theorem lookup_remove (m : GoMap κ ν) (k k' : κ) :
    (m.remove k).lookup k' = if k = k' then none else m.lookup k' := by
  induction m with
  | nil => simp [remove, lookup]
  | cons e m ih =>
    obtain ⟨a, b⟩ := e
    simp only [remove, ne_eq, decide_not] at ih ⊢
    by_cases h : a = k
    · subst h
      by_cases h' : a = k'
      · subst h'
        simpa [List.filter_cons] using ih
      · simpa [List.filter_cons, h', lookup] using ih
    · by_cases h' : a = k'
      · subst h'
        simp [lookup, h, Ne.symm h, List.filter_cons]
      · simp [lookup, h, h', List.filter_cons, ih]

theorem lookup_remove_self (m : GoMap κ ν) (k : κ) : (m.remove k).lookup k = none := by
  simp [lookup_remove]

theorem lookup_remove_ne (m : GoMap κ ν) {k k' : κ} (h : k ≠ k') :
    (m.remove k).lookup k' = m.lookup k' := by
  simp [lookup_remove, h]

theorem mem_of_lookup {m : GoMap κ ν} {k : κ} {v : ν} (h : m.lookup k = some v) :
    (k, v) ∈ m := by
  induction m with
  | nil => simp [lookup] at h
  | cons e m ih =>
    obtain ⟨a, b⟩ := e
    by_cases h' : a = k
    · subst h'
      simp [lookup] at h
      simp [h]
    · simp [lookup, h'] at h
      exact List.mem_cons_of_mem _ (ih h)

end GoMap

namespace FilterTree

theorem mem_Visit (ft : FilterTree) (val : String) (id : ClientID) :
    id ∈ ft.Visit val ↔ (val, id) ∈ ft.items := by
  unfold Visit
  simp only [List.mem_map, List.mem_filter, decide_eq_true_eq]
  constructor
  · rintro ⟨⟨v, i⟩, ⟨hm, hv⟩, hi⟩
    simp only at hv hi
    subst hv hi
    exact hm
  · intro h
    exact ⟨(val, id), ⟨h, rfl⟩, rfl⟩

theorem mem_Insert (ft : FilterTree) (id : ClientID) (val : String) (e : String × ClientID) :
    e ∈ (ft.Insert id val).items ↔ e = (val, id) ∨ e ∈ ft.items := by
  unfold Insert
  by_cases h : (val, id) ∈ ft.items
  · simp only [h, if_true]
    constructor
    · intro he
      exact Or.inr he
    · rintro (he | he)
      · subst he
        exact h
      · exact he
  · simp [h]

theorem mem_Remove (ft : FilterTree) (id : ClientID) (val : String) (e : String × ClientID) :
    e ∈ (ft.Remove id val).items ↔ e ∈ ft.items ∧ e ≠ (val, id) := by
  unfold Remove
  simp [List.mem_filter]

theorem nodup_Insert (ft : FilterTree) (id : ClientID) (val : String)
    (h : ft.items.Nodup) : (ft.Insert id val).items.Nodup := by
  unfold Insert
  by_cases hm : (val, id) ∈ ft.items
  · simpa [hm] using h
  · simp [hm, h]

theorem nodup_Remove (ft : FilterTree) (id : ClientID) (val : String)
    (h : ft.items.Nodup) : (ft.Remove id val).items.Nodup := by
  unfold Remove
  exact h.filter _

theorem nodup_Visit (ft : FilterTree) (val : String) (h : ft.items.Nodup) :
    (ft.Visit val).Nodup := by
  unfold Visit
  refine List.Nodup.map_on ?_ (h.filter _)
  intro a ha b hb hab
  simp only [List.mem_filter, decide_eq_true_eq] at ha hb
  exact Prod.ext (ha.2.trans hb.2.symm) hab

end FilterTree

/-! ## Lemmas on the handlers -/

theorem mem_bucket (gs : GateService) (name val : String) (id : ClientID) :
    id ∈ bucket gs name val ↔ treeMem gs.filterTrees name (val, id) := by
  unfold bucket treeMem
  cases h : gs.filterTrees.lookup name with
  | none => simp
  | some ft => simp [FilterTree.mem_Visit]

theorem treeMem_removeOne (clientid : ClientID) (trees : GoMap String FilterTree)
    (kv : String × String) (name : String) (e : String × ClientID) :
    treeMem (removeOne clientid trees kv) name e ↔
      treeMem trees name e ∧ ¬ (name = kv.1 ∧ e = (kv.2, clientid)) := by
  unfold removeOne treeMem
  cases h : trees.lookup kv.1 with
  | none =>
    simp only
    constructor
    · rintro ⟨ft, hft, he⟩
      refine ⟨⟨ft, hft, he⟩, ?_⟩
      rintro ⟨hn, -⟩
      subst hn
      rw [h] at hft
      cases hft
    · rintro ⟨hm, -⟩
      exact hm
  | some ft0 =>
    simp only
    by_cases hn : kv.1 = name
    · subst hn
      rw [GoMap.lookup_store_self, h]
      constructor
      · rintro ⟨ft, hft, he⟩
        cases hft
        rw [FilterTree.mem_Remove] at he
        exact ⟨⟨ft0, rfl, he.1⟩, fun hc => he.2 hc.2⟩
      · rintro ⟨⟨ft, hft, he⟩, hne⟩
        cases hft
        refine ⟨_, rfl, ?_⟩
        rw [FilterTree.mem_Remove]
        exact ⟨he, fun hc => hne ⟨rfl, hc⟩⟩
    · rw [GoMap.lookup_store_ne _ _ hn]
      constructor
      · rintro ⟨ft, hft, he⟩
        exact ⟨⟨ft, hft, he⟩, fun hc => hn hc.1.symm⟩
      · rintro ⟨hm, -⟩
        exact hm

theorem treeMem_foldl_removeOne (clientid : ClientID) (props : List (String × String))
    (trees : GoMap String FilterTree) (name : String) (e : String × ClientID) :
    treeMem (props.foldl (removeOne clientid) trees) name e ↔
      treeMem trees name e ∧ ¬ ((name, e.1) ∈ props ∧ e.2 = clientid) := by
  induction props generalizing trees with
  | nil => simp
  | cons kv props ih =>
    rw [List.foldl_cons, ih, treeMem_removeOne]
    obtain ⟨k, v⟩ := kv
    obtain ⟨ev, ei⟩ := e
    simp only [List.mem_cons, Prod.mk.injEq]
    tauto

theorem dropFilterProps_filterTrees (gs : GateService) (cp : ClientProxy) :
    (onClientProxyClose_dropFilterProps gs cp).filterTrees =
      cp.filterProps.foldl (removeOne cp.clientid) gs.filterTrees := by
  unfold onClientProxyClose_dropFilterProps
  simp only
  congr 1

theorem handleClear_filterTrees (gs : GateService) (cp : ClientProxy) (packet : Packet) :
    (handleClearClientFilterProps gs cp packet).filterTrees =
      cp.filterProps.foldl (removeOne cp.clientid) gs.filterTrees := by
  unfold handleClearClientFilterProps
  simp only
  congr 1
  funext trees kv
  unfold removeOne
  cases trees.lookup kv.1 <;> rfl

/-- What a successful run of the set handler did: it read `key` and `val`,
wrote `key = val` on the proxy, left the registry and the other trees alone,
and in the tree of `key` replaced the proxy's old entry by `(val, clientid)`. -/
theorem handleSet_some {gs gs1 : GateService} {cp cp1 : ClientProxy} {packet : Packet}
    (h : handleSetClientFilterProp gs cp packet = some (gs1, cp1)) :
    ∃ key val p1 p2, packet.ReadVarStr = some (key, p1) ∧ p1.ReadVarStr = some (val, p2) ∧
      cp1 = { cp with filterProps := cp.filterProps.store key val } ∧
      gs1.clientProxies = gs.clientProxies ∧ gs1.terminating = gs.terminating ∧
      (∀ name, name ≠ key → gs1.filterTrees.lookup name = gs.filterTrees.lookup name) ∧
      (∀ e, treeMem gs1.filterTrees key e ↔
        e = (val, cp.clientid) ∨
          (treeMem gs.filterTrees key e ∧ ∀ old, cp.attr key = some old → e ≠ (old, cp.clientid))) := by
  unfold handleSetClientFilterProp at h
  cases hk : packet.ReadVarStr with
  | none => simp [hk] at h
  | some r1 =>
    obtain ⟨key, p1⟩ := r1
    cases hv : p1.ReadVarStr with
    | none => simp [hk, hv] at h
    | some r2 =>
      obtain ⟨val, p2⟩ := r2
      simp only [hk, hv, Option.some.injEq, Prod.mk.injEq] at h
      obtain ⟨hgs, hcp⟩ := h
      refine ⟨key, val, p1, p2, rfl, hv, hcp.symm, ?_, ?_, ?_, ?_⟩
      · rw [← hgs]
      · rw [← hgs]
      · intro name hne
        rw [← hgs]
        exact GoMap.lookup_store_ne _ _ (Ne.symm hne)
      · intro e
        rw [← hgs]
        unfold treeMem ClientProxy.attr
        simp only [GoMap.lookup_store_self, Option.some.injEq, exists_eq_left']
        rw [FilterTree.mem_Insert]
        cases ht : gs.filterTrees.lookup key with
        | none =>
          cases ho : cp.filterProps.lookup key with
          | none => simp [NewFilterTree]
          | some old => simp [NewFilterTree, FilterTree.Remove]
        | some ft =>
          cases ho : cp.filterProps.lookup key with
          | none => simp
          | some old => simp [FilterTree.mem_Remove]

theorem handleSet_isSome (gs : GateService) (cp : ClientProxy) {packet p1 p2 : Packet}
    {key val : String} (hk : packet.ReadVarStr = some (key, p1))
    (hv : p1.ReadVarStr = some (val, p2)) :
    ∃ gs1 cp1, handleSetClientFilterProp gs cp packet = some (gs1, cp1) := by
  unfold handleSetClientFilterProp
  simp only [hk, hv]
  exact ⟨_, _, rfl⟩

/-! ## The invariant and its preservation -/

theorem keysMatch_new : KeysMatch newGateService := by
  intro id cp h
  simp [newGateService, GoMap.lookup] at h

theorem noOrphan_new : NoOrphan newGateService := by
  intro name val id h
  simp [bucket, newGateService, GoMap.lookup] at h

theorem keysMatch_accept {gs : GateService} (conn : Conn) (clientid : ClientID)
    (hk : KeysMatch gs) : KeysMatch (ServeTCPConnection gs conn clientid).1 := by
  unfold ServeTCPConnection
  by_cases ht : gs.terminating = true
  · simpa [ht] using hk
  · simp only [ht]
    intro id cp h
    simp only [newClientProxy, Bool.false_eq_true, if_false] at h
    rw [GoMap.lookup_store] at h
    by_cases hid : clientid = id
    · simp only [hid, if_true, Option.some.injEq] at h
      rw [← h]
    · simp only [hid, if_false] at h
      exact hk id cp h

theorem noOrphan_accept {gs : GateService} (conn : Conn) (clientid : ClientID)
    (hn : NoOrphan gs) (hfresh : gs.clientProxies.lookup clientid = none) :
    NoOrphan (ServeTCPConnection gs conn clientid).1 := by
  unfold ServeTCPConnection
  by_cases ht : gs.terminating = true
  · simpa [ht] using hn
  · simp only [ht]
    intro name val id h
    obtain ⟨cp, hcp, hattr⟩ := hn name val id h
    refine ⟨cp, ?_, hattr⟩
    simp only [newClientProxy, Bool.false_eq_true, if_false]
    rw [GoMap.lookup_store_ne _ _ ?_]
    · exact hcp
    · intro hid
      rw [hid, hcp] at hfresh
      cases hfresh

theorem keysMatch_set {gs gs1 : GateService} {cp cp1 : ClientProxy} {packet : Packet}
    (hk : KeysMatch gs)
    (hset : handleSetClientFilterProp gs cp packet = some (gs1, cp1)) :
    KeysMatch { gs1 with clientProxies := gs1.clientProxies.store cp.clientid cp1 } := by
  obtain ⟨key, val, p1, p2, -, -, hcp1, hreg, -, -, -⟩ := handleSet_some hset
  intro id c h
  simp only at h
  rw [GoMap.lookup_store, hreg] at h
  by_cases hid : cp.clientid = id
  · simp only [hid, if_true, Option.some.injEq] at h
    rw [← h, hcp1]
    exact hid
  · simp only [hid, if_false] at h
    exact hk id c h

theorem noOrphan_set {gs gs1 : GateService} {cp cp1 : ClientProxy} {packet : Packet}
    (hn : NoOrphan gs) (hreg : gs.clientProxies.lookup cp.clientid = some cp)
    (hset : handleSetClientFilterProp gs cp packet = some (gs1, cp1)) :
    NoOrphan { gs1 with clientProxies := gs1.clientProxies.store cp.clientid cp1 } := by
  obtain ⟨key, val, p1, p2, -, -, hcp1, hregs, -, hother, hkey⟩ := handleSet_some hset
  intro name v i hi
  rw [mem_bucket] at hi
  simp only at hi ⊢
  rw [hregs]
  by_cases hname : name = key
  · subst hname
    rcases (hkey (v, i)).mp hi with heq | ⟨hold, hne⟩
    · simp only [Prod.mk.injEq] at heq
      obtain ⟨hv, hi'⟩ := heq
      subst hv hi'
      refine ⟨cp1, GoMap.lookup_store_self _ _ _, ?_⟩
      rw [hcp1]
      exact GoMap.lookup_store_self _ _ _
    · obtain ⟨c, hc, hattr⟩ := hn name v i ((mem_bucket gs name v i).mpr hold)
      by_cases hid : cp.clientid = i
      · subst hid
        rw [hreg] at hc
        cases hc
        exact absurd rfl (hne v hattr)
      · exact ⟨c, by rw [GoMap.lookup_store_ne _ _ hid]; exact hc, hattr⟩
  · have hold : treeMem gs.filterTrees name (v, i) := by
      unfold treeMem at hi ⊢
      rw [hother name hname] at hi
      exact hi
    obtain ⟨c, hc, hattr⟩ := hn name v i ((mem_bucket gs name v i).mpr hold)
    by_cases hid : cp.clientid = i
    · subst hid
      rw [hreg] at hc
      cases hc
      refine ⟨cp1, GoMap.lookup_store_self _ _ _, ?_⟩
      rw [hcp1]
      unfold ClientProxy.attr at hattr ⊢
      simp only
      rw [GoMap.lookup_store_ne _ _ (Ne.symm hname)]
      exact hattr
    · exact ⟨c, by rw [GoMap.lookup_store_ne _ _ hid]; exact hc, hattr⟩

theorem noOrphan_clear {gs : GateService} (cp : ClientProxy) (packet : Packet)
    (hn : NoOrphan gs) : NoOrphan (handleClearClientFilterProps gs cp packet) := by
  intro name v i hi
  rw [mem_bucket, handleClear_filterTrees, treeMem_foldl_removeOne] at hi
  exact hn name v i ((mem_bucket gs name v i).mpr hi.1)

theorem keysMatch_close {gs : GateService} (cp : ClientProxy) (hk : KeysMatch gs) :
    KeysMatch (onClientProxyClose gs cp).1 := by
  intro id c h
  simp only [onClientProxyClose, onClientProxyClose_dropFilterProps,
    onClientProxyClose_dropFromRegistry] at h
  rw [GoMap.lookup_remove] at h
  by_cases hid : cp.clientid = id
  · simp [hid] at h
  · simp only [hid, if_false] at h
    exact hk id c h

theorem noOrphan_close {gs : GateService} {cp : ClientProxy}
    (hn : NoOrphan gs) (hreg : gs.clientProxies.lookup cp.clientid = some cp) :
    NoOrphan (onClientProxyClose gs cp).1 := by
  intro name v i hi
  rw [mem_bucket] at hi
  simp only [onClientProxyClose] at hi ⊢
  rw [dropFilterProps_filterTrees, treeMem_foldl_removeOne] at hi
  obtain ⟨hold, hnot⟩ := hi
  simp only [onClientProxyClose_dropFromRegistry] at hold
  obtain ⟨c, hc, hattr⟩ := hn name v i ((mem_bucket gs name v i).mpr hold)
  have hid : cp.clientid ≠ i := by
    intro hid
    subst hid
    rw [hreg] at hc
    cases hc
    exact hnot ⟨GoMap.mem_of_lookup hattr, rfl⟩
  refine ⟨c, ?_, hattr⟩
  simp only [onClientProxyClose_dropFilterProps, onClientProxyClose_dropFromRegistry]
  rw [GoMap.lookup_remove_ne _ hid]
  exact hc

theorem keysMatch_clear {gs : GateService} (cp : ClientProxy) (packet : Packet)
    (hk : KeysMatch gs) : KeysMatch (handleClearClientFilterProps gs cp packet) := by
  intro id c h
  exact hk id c h

theorem inv_afterPacket (proto : Proto) (DEBUG_MODE : Bool) {gs : GateService}
    (msgtype : Nat) (packet : Packet) (hk : KeysMatch gs) (hn : NoOrphan gs) :
    KeysMatch (afterPacket proto DEBUG_MODE gs msgtype packet) ∧
      NoOrphan (afterPacket proto DEBUG_MODE gs msgtype packet) := by
  unfold afterPacket HandleDispatcherClientPacket
  by_cases hr : proto.MT_REDIRECT_TO_GATEPROXY_MSG_TYPE_START ≤ msgtype ∧
      msgtype ≤ proto.MT_REDIRECT_TO_GATEPROXY_MSG_TYPE_STOP
  · simp only [hr, and_self, if_true]
    cases h1 : packet.ReadUint16 with
    | none => exact ⟨hk, hn⟩
    | some r1 =>
      obtain ⟨sid, p1⟩ := r1
      simp only
      cases h2 : p1.ReadClientID with
      | none => exact ⟨hk, hn⟩
      | some r2 =>
        obtain ⟨clientid, p2⟩ := r2
        simp only
        cases h3 : gs.clientProxies.lookup clientid with
        | none => exact ⟨hk, hn⟩
        | some cp =>
          simp only
          have hid : cp.clientid = clientid := hk clientid cp h3
          by_cases hs : msgtype = proto.MT_SET_CLIENTPROXY_FILTER_PROP
          · simp only [hs, if_true]
            cases h4 : handleSetClientFilterProp gs cp p2 with
            | none => exact ⟨hk, hn⟩
            | some r4 =>
              obtain ⟨gs1, cp1⟩ := r4
              simp only
              rw [← hid]
              rw [← hid] at h3
              exact ⟨keysMatch_set hk h4, noOrphan_set hn h3 h4⟩
          · simp only [hs, if_false]
            by_cases hc : msgtype = proto.MT_CLEAR_CLIENTPROXY_FILTER_PROPS
            · simp only [hc, if_true]
              exact ⟨keysMatch_clear cp p2 hk, noOrphan_clear cp p2 hn⟩
            · simp only [hc, if_false]
              exact ⟨hk, hn⟩
  · simp only [hr, if_false]
    by_cases hf : msgtype = proto.MT_CALL_FILTERED_CLIENTS
    · simp only [hf, if_true]
      cases handleCallFilteredClientProxies gs packet <;> exact ⟨hk, hn⟩
    · simp only [hf, if_false]
      exact ⟨hk, hn⟩

theorem reachable_inv {proto : Proto} {DEBUG_MODE : Bool} {gs : GateService}
    (h : Reachable proto DEBUG_MODE gs) : KeysMatch gs ∧ NoOrphan gs := by
  induction h with
  | fresh => exact ⟨keysMatch_new, noOrphan_new⟩
  | accept gs conn clientid _ hfresh ih =>
    exact ⟨keysMatch_accept conn clientid ih.1, noOrphan_accept conn clientid ih.2 hfresh⟩
  | dispatch gs msgtype packet _ ih =>
    exact inv_afterPacket proto DEBUG_MODE msgtype packet ih.1 ih.2
  | setProp gs cp packet gs1 cp1 _ hreg hset ih =>
    exact ⟨keysMatch_set ih.1 hset, noOrphan_set ih.2 hreg hset⟩
  | clearProps gs cp packet _ _ ih =>
    exact ⟨keysMatch_clear cp packet ih.1, noOrphan_clear cp packet ih.2⟩
  | disconnect gs cp _ hreg ih =>
    exact ⟨keysMatch_close cp ih.1, noOrphan_close ih.2 hreg⟩
  | terminated gs _ ih =>
    exact ih

/-- The sends of a call-filtered broadcast: one for each visited identity
that has a registered proxy. -/
theorem callFiltered_some {gs : GateService} {packet : Packet} {events : List Event}
    (h : handleCallFilteredClientProxies gs packet = some events) :
    ∃ key val p1 p2, packet.ReadVarStr = some (key, p1) ∧ p1.ReadVarStr = some (val, p2) ∧
      ∀ ev, ev ∈ events ↔
        ∃ id cp, id ∈ bucket gs key val ∧ gs.clientProxies.lookup id = some cp ∧
          ev = Event.sendPacket cp.clientid p2 := by
  unfold handleCallFilteredClientProxies at h
  cases hk : packet.ReadVarStr with
  | none => simp [hk] at h
  | some r1 =>
    obtain ⟨key, p1⟩ := r1
    cases hv : p1.ReadVarStr with
    | none => simp [hk, hv] at h
    | some r2 =>
      obtain ⟨val, p2⟩ := r2
      simp only [hk, hv] at h
      refine ⟨key, val, p1, p2, rfl, hv, ?_⟩
      intro ev
      unfold bucket
      cases ht : gs.filterTrees.lookup key with
      | none =>
        simp only [ht, Option.some.injEq] at h
        subst h
        simp
      | some ft =>
        simp only [ht, Option.some.injEq] at h
        subst h
        simp only [List.mem_filterMap]
        constructor
        · rintro ⟨id, hid, hev⟩
          cases hc : gs.clientProxies.lookup id with
          | none => simp [hc] at hev
          | some cp =>
            simp only [hc, Option.some.injEq] at hev
            exact ⟨id, cp, hid, hc, hev.symm⟩
        · rintro ⟨id, cp, hid, hc, hev⟩
          exact ⟨id, hid, by simp [hc, hev]⟩

theorem callFiltered_isSome (gs : GateService) {packet p1 p2 : Packet} {key val : String}
    (hk : packet.ReadVarStr = some (key, p1)) (hv : p1.ReadVarStr = some (val, p2)) :
    ∃ events, handleCallFilteredClientProxies gs packet = some events := by
  unfold handleCallFilteredClientProxies
  simp only [hk, hv]
  cases gs.filterTrees.lookup key <;> exact ⟨_, rfl⟩

/-- A broadcast sends nothing to an identity that is not registered. -/
theorem callFiltered_skips_unregistered {gs : GateService} {packet : Packet}
    {events : List Event} {clientid : ClientID} (hk : KeysMatch gs)
    (hnone : gs.clientProxies.lookup clientid = none)
    (h : handleCallFilteredClientProxies gs packet = some events) (p : Packet) :
    Event.sendPacket clientid p ∉ events := by
  obtain ⟨key, val, p1, p2, -, -, hev⟩ := callFiltered_some h
  intro hmem
  obtain ⟨id, cp, -, hc, heq⟩ := (hev _).mp hmem
  simp only [Event.sendPacket.injEq] at heq
  have := hk id cp hc
  rw [← heq.1] at this
  rw [this, hc] at hnone
  cases hnone

theorem keysMatch_dropFromRegistry {gs : GateService} (cp : ClientProxy) (hk : KeysMatch gs) :
    KeysMatch (onClientProxyClose_dropFromRegistry gs cp) := by
  intro id c h
  simp only [onClientProxyClose_dropFromRegistry] at h
  rw [GoMap.lookup_remove] at h
  by_cases hid : cp.clientid = id
  · simp [hid] at h
  · simp only [hid, if_false] at h
    exact hk id c h

/-- After the close of a registered proxy of a state with no orphaned entry,
no bucket holds its identity. -/
theorem close_clears_buckets {gs : GateService} {cp : ClientProxy}
    (hn : NoOrphan gs) (hreg : gs.clientProxies.lookup cp.clientid = some cp)
    (name val : String) : cp.clientid ∉ bucket (onClientProxyClose gs cp).1 name val := by
  intro hmem
  obtain ⟨c, hc, -⟩ := noOrphan_close hn hreg name val cp.clientid hmem
  simp only [onClientProxyClose, onClientProxyClose_dropFilterProps,
    onClientProxyClose_dropFromRegistry] at hc
  rw [GoMap.lookup_remove_self] at hc
  cases hc

/-- The close of a proxy leaves the buckets of every other identity as they were. -/
theorem close_keeps_other_buckets (gs : GateService) (cp : ClientProxy) {id : ClientID}
    (hid : id ≠ cp.clientid) (name val : String) :
    id ∈ bucket (onClientProxyClose gs cp).1 name val ↔ id ∈ bucket gs name val := by
  rw [mem_bucket, mem_bucket]
  simp only [onClientProxyClose]
  rw [dropFilterProps_filterTrees, treeMem_foldl_removeOne]
  simp only [onClientProxyClose_dropFromRegistry]
  constructor
  · rintro ⟨h, -⟩
    exact h
  · intro h
    exact ⟨h, fun hc => hid hc.2⟩

/-! ## Reachability of the scenario states -/

theorem reachable_scenarioSet {gs : GateService} (clientid : ClientID) (name val : String)
    (h : Reachable exampleProto false gs) :
    Reachable exampleProto false (scenarioSet gs clientid name val) :=
  Reachable.dispatch gs 1010 (redirectPacket clientid (nameValue name val)) h

theorem reachable_scenarioClear {gs : GateService} (clientid : ClientID)
    (h : Reachable exampleProto false gs) :
    Reachable exampleProto false (scenarioClear gs clientid) :=
  Reachable.dispatch gs 1011 (redirectPacket clientid []) h

theorem reachable_accepted :
    Reachable exampleProto false (ServeTCPConnection newGateService 1 "C1").1 :=
  Reachable.accept _ 1 "C1" Reachable.fresh (by decide)

theorem reachable_stateForest : Reachable exampleProto false stateForest :=
  reachable_scenarioSet "C1" "zone" "forest" reachable_accepted

theorem reachable_stateTwoProps : Reachable exampleProto false stateTwoProps :=
  reachable_scenarioSet "C1" "team" "red" reachable_stateForest

theorem reachable_stateBothForest : Reachable exampleProto false stateBothForest :=
  reachable_scenarioSet "C2" "zone" "forest" (reachable_scenarioSet "C1" "zone" "forest"
    (Reachable.accept _ 2 "C2" reachable_accepted (by decide)))

/-! ## Buckets are sets -/

theorem treesNodup_store {trees : GoMap String FilterTree} {key : String} {ft : FilterTree}
    (h : TreesNodup trees) (hft : ft.items.Nodup) : TreesNodup (trees.store key ft) := by
  intro name ft' hl
  rw [GoMap.lookup_store] at hl
  by_cases hk : key = name
  · simp only [hk, if_true, Option.some.injEq] at hl
    rw [← hl]
    exact hft
  · simp only [hk, if_false] at hl
    exact h name ft' hl

theorem treesNodup_removeOne (clientid : ClientID) {trees : GoMap String FilterTree}
    (kv : String × String) (h : TreesNodup trees) :
    TreesNodup (removeOne clientid trees kv) := by
  unfold removeOne
  cases hl : trees.lookup kv.1 with
  | none => exact h
  | some ft => exact treesNodup_store h (FilterTree.nodup_Remove ft _ _ (h _ ft hl))

theorem treesNodup_foldl_removeOne (clientid : ClientID) (props : List (String × String))
    {trees : GoMap String FilterTree} (h : TreesNodup trees) :
    TreesNodup (props.foldl (removeOne clientid) trees) := by
  induction props generalizing trees with
  | nil => exact h
  | cons kv props ih => exact ih (treesNodup_removeOne clientid kv h)

theorem treesNodup_set {gs gs1 : GateService} {cp cp1 : ClientProxy} {packet : Packet}
    (h : TreesNodup gs.filterTrees)
    (hset : handleSetClientFilterProp gs cp packet = some (gs1, cp1)) :
    TreesNodup gs1.filterTrees := by
  unfold handleSetClientFilterProp at hset
  cases hk : packet.ReadVarStr with
  | none => simp [hk] at hset
  | some r1 =>
    obtain ⟨key, p1⟩ := r1
    cases hv : p1.ReadVarStr with
    | none => simp [hk, hv] at hset
    | some r2 =>
      obtain ⟨val, p2⟩ := r2
      simp only [hk, hv, Option.some.injEq, Prod.mk.injEq] at hset
      rw [← hset.1]
      refine treesNodup_store h (FilterTree.nodup_Insert _ _ _ ?_)
      have hbase : (match gs.filterTrees.lookup key with
          | some ft => ft
          | none => NewFilterTree).items.Nodup := by
        cases hl : gs.filterTrees.lookup key with
        | none => simp [NewFilterTree]
        | some ft => exact h key ft hl
      cases cp.filterProps.lookup key with
      | none => exact hbase
      | some old => exact FilterTree.nodup_Remove _ _ _ hbase

theorem treesNodup_afterPacket (proto : Proto) (DEBUG_MODE : Bool) {gs : GateService}
    (msgtype : Nat) (packet : Packet) (h : TreesNodup gs.filterTrees) :
    TreesNodup (afterPacket proto DEBUG_MODE gs msgtype packet).filterTrees := by
  unfold afterPacket HandleDispatcherClientPacket
  by_cases hr : proto.MT_REDIRECT_TO_GATEPROXY_MSG_TYPE_START ≤ msgtype ∧
      msgtype ≤ proto.MT_REDIRECT_TO_GATEPROXY_MSG_TYPE_STOP
  · simp only [hr, and_self, if_true]
    cases h1 : packet.ReadUint16 with
    | none => exact h
    | some r1 =>
      obtain ⟨sid, p1⟩ := r1
      simp only
      cases h2 : p1.ReadClientID with
      | none => exact h
      | some r2 =>
        obtain ⟨clientid, p2⟩ := r2
        simp only
        cases h3 : gs.clientProxies.lookup clientid with
        | none => exact h
        | some cp =>
          simp only
          by_cases hs : msgtype = proto.MT_SET_CLIENTPROXY_FILTER_PROP
          · simp only [hs, if_true]
            cases h4 : handleSetClientFilterProp gs cp p2 with
            | none => exact h
            | some r4 =>
              obtain ⟨gs1, cp1⟩ := r4
              have hgs1 : TreesNodup gs1.filterTrees := treesNodup_set h h4
              exact hgs1
          · simp only [hs, if_false]
            by_cases hc : msgtype = proto.MT_CLEAR_CLIENTPROXY_FILTER_PROPS
            · simp only [hc, if_true]
              rw [handleClear_filterTrees]
              exact treesNodup_foldl_removeOne _ _ h
            · simp only [hc, if_false]
              exact h
  · simp only [hr, if_false]
    by_cases hf : msgtype = proto.MT_CALL_FILTERED_CLIENTS
    · simp only [hf, if_true]
      cases handleCallFilteredClientProxies gs packet <;> exact h
    · simp only [hf, if_false]
      exact h

theorem reachable_treesNodup {proto : Proto} {DEBUG_MODE : Bool} {gs : GateService}
    (h : Reachable proto DEBUG_MODE gs) : TreesNodup gs.filterTrees := by
  induction h with
  | fresh =>
    intro name ft hl
    simp [newGateService, GoMap.lookup] at hl
  | accept gs conn clientid _ _ ih =>
    unfold ServeTCPConnection
    by_cases ht : gs.terminating = true
    · simpa [ht] using ih
    · simpa [ht] using ih
  | dispatch gs msgtype packet _ ih =>
    exact treesNodup_afterPacket proto DEBUG_MODE msgtype packet ih
  | setProp gs cp packet gs1 cp1 _ _ hset ih =>
    have hgs1 : TreesNodup gs1.filterTrees := treesNodup_set ih hset
    exact hgs1
  | clearProps gs cp packet _ _ ih =>
    rw [handleClear_filterTrees]
    exact treesNodup_foldl_removeOne _ _ ih
  | disconnect gs cp _ _ ih =>
    simp only [onClientProxyClose]
    rw [dropFilterProps_filterTrees]
    exact treesNodup_foldl_removeOne _ _ ih
  | terminated gs _ ih =>
    exact ih

theorem nodup_bucket {gs : GateService} (h : TreesNodup gs.filterTrees) (name val : String) :
    (bucket gs name val).Nodup := by
  unfold bucket
  cases hl : gs.filterTrees.lookup name with
  | none => simp
  | some ft => exact FilterTree.nodup_Visit ft val (h name ft hl)

/-- What a call-filtered broadcast does in a reachable state: it returns, it
sends the packet once to each identity of bucket `val` of the tree of `name`
and to nobody else, and each of these identities is a registered connection
whose attribute map records `name = val`. -/
theorem callFiltered_recipients {proto : Proto} {DEBUG_MODE : Bool} {gs : GateService}
    (h : Reachable proto DEBUG_MODE gs) {packet p1 p2 : Packet} {name val : String}
    (hk : packet.ReadVarStr = some (name, p1)) (hv : p1.ReadVarStr = some (val, p2)) :
    ∃ events, handleCallFilteredClientProxies gs packet = some events ∧
      events.Nodup ∧
      (∀ ev, ev ∈ events ↔ ∃ id, id ∈ bucket gs name val ∧ ev = Event.sendPacket id p2) ∧
      (∀ id, id ∈ bucket gs name val →
        ∃ cp, gs.clientProxies.lookup id = some cp ∧ cp.clientid = id ∧
          cp.attr name = some val) := by
  obtain ⟨hkm, hno⟩ := reachable_inv h
  have hnd := nodup_bucket (reachable_treesNodup h) name val
  have hreg : ∀ id, id ∈ bucket gs name val →
      ∃ cp, gs.clientProxies.lookup id = some cp ∧ cp.clientid = id ∧
        cp.attr name = some val := by
    intro id hid
    obtain ⟨cp, hcp, hattr⟩ := hno name val id hid
    exact ⟨cp, hcp, hkm id cp hcp, hattr⟩
  have heq : handleCallFilteredClientProxies gs packet =
      some ((bucket gs name val).filterMap (fun clientid =>
        match gs.clientProxies.lookup clientid with
        | some clientproxy => some (Event.sendPacket clientproxy.clientid p2)
        | none => none)) := by
    unfold handleCallFilteredClientProxies bucket
    simp only [hk, hv]
    cases gs.filterTrees.lookup name <;> simp
  refine ⟨_, heq, ?_, ?_, hreg⟩
  · refine List.Nodup.filterMap ?_ hnd
    intro a a' b hb hb'
    cases ha : gs.clientProxies.lookup a with
    | none => simp [ha] at hb
    | some c =>
      cases ha' : gs.clientProxies.lookup a' with
      | none => simp [ha'] at hb'
      | some c' =>
        simp only [ha, ha', Option.mem_def, Option.some.injEq] at hb hb'
        rw [← hb'] at hb
        simp only [Event.sendPacket.injEq, and_true] at hb
        rw [← hkm a c ha, ← hkm a' c' ha', hb]
  · intro ev
    simp only [List.mem_filterMap]
    constructor
    · rintro ⟨id, hid, hev⟩
      obtain ⟨cp, hcp, hcid, -⟩ := hreg id hid
      simp only [hcp, Option.some.injEq] at hev
      exact ⟨id, hid, by rw [← hev, hcid]⟩
    · rintro ⟨id, hid, hev⟩
      obtain ⟨cp, hcp, hcid, -⟩ := hreg id hid
      exact ⟨id, hid, by simp only [hcp, hcid, hev]⟩

/-- The set message through the packet handler: on a registered target the
handler runs the set handler on the registered proxy and the registry then
holds the proxy as the set handler left it; no event is produced. -/
theorem dispatch_set (proto : Proto) (DEBUG_MODE : Bool) (gs : GateService)
    (sid : Nat) (clientid : ClientID) (packet p1 p2 : Packet) (cp : ClientProxy)
    (hrange : proto.MT_REDIRECT_TO_GATEPROXY_MSG_TYPE_START ≤
        proto.MT_SET_CLIENTPROXY_FILTER_PROP ∧
      proto.MT_SET_CLIENTPROXY_FILTER_PROP ≤ proto.MT_REDIRECT_TO_GATEPROXY_MSG_TYPE_STOP)
    (hsid : packet.ReadUint16 = some (sid, p1))
    (hid : p1.ReadClientID = some (clientid, p2))
    (hreg : gs.clientProxies.lookup clientid = some cp)
    (gs1 : GateService) (cp1 : ClientProxy)
    (hset : handleSetClientFilterProp gs cp p2 = some (gs1, cp1)) :
    HandleDispatcherClientPacket proto DEBUG_MODE gs proto.MT_SET_CLIENTPROXY_FILTER_PROP packet
      = some ({ gs1 with clientProxies := gs1.clientProxies.store clientid cp1 }, []) := by
  unfold HandleDispatcherClientPacket
  simp only [hrange, and_self, if_true, hsid, hid, hreg, hset]

/-! ## The claims -/

/-- C10 (no orphaned index entries). In every state reachable from a fresh
GateService by accepting connections under identities that are not registered,
handling dispatcher packets (set, clear, redirect, call-filtered, unknown),
closing registered proxies and terminating: an identity in bucket `val` of the
filter tree of `name` is registered, under its own identity, and its attribute
map records `name = val`; so an identity is in at most one bucket per name. -/
theorem no_orphaned_index_entries (proto : Proto) (DEBUG_MODE : Bool) (gs : GateService)
    (h : Reachable proto DEBUG_MODE gs) :
    (∀ name val id, id ∈ bucket gs name val →
      ∃ cp, gs.clientProxies.lookup id = some cp ∧ cp.clientid = id ∧
        cp.attr name = some val) ∧
    (∀ name val val' id, id ∈ bucket gs name val → id ∈ bucket gs name val' → val = val') := by
  obtain ⟨hk, hn⟩ := reachable_inv h
  constructor
  · intro name val id hmem
    obtain ⟨cp, hcp, hattr⟩ := hn name val id hmem
    exact ⟨cp, hcp, hk id cp hcp, hattr⟩
  · intro name val val' id hmem hmem'
    obtain ⟨cp, hcp, hattr⟩ := hn name val id hmem
    obtain ⟨cp', hcp', hattr'⟩ := hn name val' id hmem'
    rw [hcp] at hcp'
    cases hcp'
    rw [hattr] at hattr'
    exact Option.some.inj hattr'

/-- Witness of C10 on the state with C1 and C2 both set to zone = forest. -/
theorem no_orphaned_index_entries_witness :
    Reachable exampleProto false stateBothForest ∧
    (∃ cp, stateBothForest.clientProxies.lookup "C2" = some cp ∧ cp.clientid = "C2" ∧
      cp.attr "zone" = some "forest") :=
  ⟨reachable_stateBothForest,
    (no_orphaned_index_entries exampleProto false stateBothForest
      reachable_stateBothForest).1 "zone" "forest" "C2" (by decide)⟩

/-- C3 (disconnect cleanup). In every reachable state, for every registered
proxy `cp`, after `onClientProxyClose(cp)`: no bucket of any filter tree holds
the identity of `cp`, the registry has nothing under that identity, every
other identity keeps its registry entry and is in exactly the buckets it was
in, a following call-filtered broadcast sends nothing to `cp`, and the
dispatcher is told of the disconnect. -/
theorem disconnect_cleanup (proto : Proto) (DEBUG_MODE : Bool) (gs : GateService)
    (cp : ClientProxy) (h : Reachable proto DEBUG_MODE gs)
    (hreg : gs.clientProxies.lookup cp.clientid = some cp) :
    (∀ name val, cp.clientid ∉ bucket (onClientProxyClose gs cp).1 name val) ∧
    (onClientProxyClose gs cp).1.clientProxies.lookup cp.clientid = none ∧
    (∀ id, id ≠ cp.clientid →
      (onClientProxyClose gs cp).1.clientProxies.lookup id = gs.clientProxies.lookup id) ∧
    (∀ id, id ≠ cp.clientid → ∀ name val,
      (id ∈ bucket (onClientProxyClose gs cp).1 name val ↔ id ∈ bucket gs name val)) ∧
    (∀ packet events,
      handleCallFilteredClientProxies (onClientProxyClose gs cp).1 packet = some events →
      ∀ p, Event.sendPacket cp.clientid p ∉ events) ∧
    (onClientProxyClose gs cp).2 = [Event.notifyClientDisconnected cp.clientid] := by
  obtain ⟨hk, hn⟩ := reachable_inv h
  have hnone : (onClientProxyClose gs cp).1.clientProxies.lookup cp.clientid = none := by
    simp only [onClientProxyClose, onClientProxyClose_dropFilterProps,
      onClientProxyClose_dropFromRegistry]
    exact GoMap.lookup_remove_self _ _
  refine ⟨close_clears_buckets hn hreg, hnone, ?_, ?_, ?_, rfl⟩
  · intro id hid
    simp only [onClientProxyClose, onClientProxyClose_dropFilterProps,
      onClientProxyClose_dropFromRegistry]
    exact GoMap.lookup_remove_ne _ (Ne.symm hid)
  · intro id hid name val
    exact close_keeps_other_buckets gs cp hid name val
  · intro packet events hev p
    exact callFiltered_skips_unregistered (keysMatch_close cp hk) hnone hev p

/-- Witness of C3: C1 and C2 both set to zone = forest, C1 disconnects, and a
call-filtered zone = forest reaches only C2. -/
theorem disconnect_cleanup_witness :
    "C1" ∉ bucket (onClientProxyClose stateBothForest proxyC1Forest).1 "zone" "forest" ∧
    (onClientProxyClose stateBothForest proxyC1Forest).1.clientProxies.lookup "C1" = none ∧
    (onClientProxyClose stateBothForest proxyC1Forest).1.clientProxies.lookup "C2" =
      stateBothForest.clientProxies.lookup "C2" ∧
    ("C2" ∈ bucket (onClientProxyClose stateBothForest proxyC1Forest).1 "zone" "forest" ↔
      "C2" ∈ bucket stateBothForest "zone" "forest") ∧
    handleCallFilteredClientProxies (onClientProxyClose stateBothForest proxyC1Forest).1
      ⟨nameValue "zone" "forest"⟩ = some [Event.sendPacket "C2" ⟨[]⟩] :=
  have h := disconnect_cleanup exampleProto false stateBothForest proxyC1Forest
    reachable_stateBothForest (by decide)
  ⟨h.1 "zone" "forest", h.2.1, h.2.2.1 "C2" (by decide),
    h.2.2.2.1 "C2" (by decide) "zone" "forest", by decide⟩

/-- C9, as stated, fails: in the disconnect of C1 from the reachable state
where C1 has zone = forest, the state after the first critical section has C1
absent from the registry while its identity is still in bucket forest of the
zone tree. -/
theorem disconnect_drops_registry_first :
    Reachable exampleProto false stateForest ∧
    stateForest.clientProxies.lookup "C1" = some proxyC1Forest ∧
    onClientProxyClose_dropFromRegistry stateForest proxyC1Forest ∈
      onClientProxyClose_states stateForest proxyC1Forest ∧
    (onClientProxyClose_dropFromRegistry stateForest proxyC1Forest).clientProxies.lookup "C1"
      = none ∧
    "C1" ∈ bucket (onClientProxyClose_dropFromRegistry stateForest proxyC1Forest)
      "zone" "forest" :=
  ⟨reachable_stateForest, by decide, by decide, by decide, by decide⟩

/-- C9 amended (disconnect ordering). In every reachable state, for every
registered proxy `cp`, `onClientProxyClose(cp)` passes through two states: in
the first the proxy is gone from the registry and the filter trees are as
before the call (its index entries are still there), and a call-filtered
broadcast run in that state sends nothing to `cp`; the second is the final
state of the call, in which no bucket holds the identity of `cp`. -/
theorem disconnect_registry_then_index (proto : Proto) (DEBUG_MODE : Bool) (gs : GateService)
    (cp : ClientProxy) (h : Reachable proto DEBUG_MODE gs)
    (hreg : gs.clientProxies.lookup cp.clientid = some cp) :
    onClientProxyClose_states gs cp =
      [onClientProxyClose_dropFromRegistry gs cp, (onClientProxyClose gs cp).1] ∧
    (onClientProxyClose_dropFromRegistry gs cp).clientProxies.lookup cp.clientid = none ∧
    (onClientProxyClose_dropFromRegistry gs cp).filterTrees = gs.filterTrees ∧
    (∀ packet events,
      handleCallFilteredClientProxies (onClientProxyClose_dropFromRegistry gs cp) packet
        = some events →
      ∀ p, Event.sendPacket cp.clientid p ∉ events) ∧
    (∀ name val, cp.clientid ∉ bucket (onClientProxyClose gs cp).1 name val) := by
  obtain ⟨hk, hn⟩ := reachable_inv h
  have hnone :
      (onClientProxyClose_dropFromRegistry gs cp).clientProxies.lookup cp.clientid = none := by
    simp only [onClientProxyClose_dropFromRegistry]
    exact GoMap.lookup_remove_self _ _
  refine ⟨rfl, hnone, rfl, ?_, close_clears_buckets hn hreg⟩
  intro packet events hev p
  exact callFiltered_skips_unregistered (keysMatch_dropFromRegistry cp hk) hnone hev p

/-- Witness of C9 amended, on the disconnect of C1 from the state where C1
has zone = forest. -/
theorem disconnect_registry_then_index_witness :
    (onClientProxyClose_dropFromRegistry stateForest proxyC1Forest).clientProxies.lookup
      proxyC1Forest.clientid = none ∧
    (onClientProxyClose_dropFromRegistry stateForest proxyC1Forest).filterTrees
      = stateForest.filterTrees ∧
    proxyC1Forest.clientid ∉ bucket (onClientProxyClose stateForest proxyC1Forest).1
      "zone" "forest" :=
  have h := disconnect_registry_then_index exampleProto false stateForest proxyC1Forest
    reachable_stateForest (by decide)
  ⟨h.2.1, h.2.2.1, h.2.2.2.2 "zone" "forest"⟩

/-- C4 (update-on-change). For every state, every proxy `cp` and every packet
carrying `(n, v1)`, `handleSetClientFilterProp` returns, and after it: the
proxy is the same connection and records `n = v1`; the filter tree of `n`
exists and its bucket `v1` holds the identity; if the proxy recorded
`n = v0` before, with `v0` different from `v1`, bucket `v0` no longer holds
the identity; the attributes of the proxy under other names, the filter trees
of other names, the registry (so every other proxy and its attribute map) and
the buckets of every other identity in the tree of `n` are unchanged; once the
proxy is back in the registry under its identity, the entries of all other
identities are those of before the call. -/
theorem update_on_change (gs : GateService) (cp : ClientProxy) (packet p1 p2 : Packet)
    (n v1 : String) (hk : packet.ReadVarStr = some (n, p1))
    (hv : p1.ReadVarStr = some (v1, p2)) :
    ∃ gs1 cp1, handleSetClientFilterProp gs cp packet = some (gs1, cp1) ∧
      cp1.clientid = cp.clientid ∧
      cp1.attr n = some v1 ∧
      (∃ ft, gs1.filterTrees.lookup n = some ft) ∧
      cp.clientid ∈ bucket gs1 n v1 ∧
      (∀ v0, cp.attr n = some v0 → v0 ≠ v1 → cp.clientid ∉ bucket gs1 n v0) ∧
      (∀ n', n' ≠ n → cp1.attr n' = cp.attr n') ∧
      (∀ n', n' ≠ n → gs1.filterTrees.lookup n' = gs.filterTrees.lookup n') ∧
      gs1.clientProxies = gs.clientProxies ∧
      gs1.terminating = gs.terminating ∧
      (∀ id, id ≠ cp.clientid → ∀ v, (id ∈ bucket gs1 n v ↔ id ∈ bucket gs n v)) ∧
      (gs1.clientProxies.store cp.clientid cp1).lookup cp.clientid = some cp1 ∧
      (∀ id, id ≠ cp.clientid →
        (gs1.clientProxies.store cp.clientid cp1).lookup id = gs.clientProxies.lookup id) := by
  obtain ⟨gs1, cp1, hset⟩ := handleSet_isSome gs cp hk hv
  obtain ⟨key, val, q1, q2, hk', hv', hcp1, hregs, hterm, hother, hkey⟩ := handleSet_some hset
  rw [hk] at hk'
  simp only [Option.some.injEq, Prod.mk.injEq] at hk'
  obtain ⟨hkey_eq, hq1⟩ := hk'
  subst hkey_eq hq1
  rw [hv] at hv'
  simp only [Option.some.injEq, Prod.mk.injEq] at hv'
  obtain ⟨hval_eq, -⟩ := hv'
  subst hval_eq
  have hin : cp.clientid ∈ bucket gs1 n v1 := by
    rw [mem_bucket]
    exact (hkey _).mpr (Or.inl rfl)
  refine ⟨gs1, cp1, hset, ?_, ?_, ?_, hin, ?_, ?_, hother, hregs, hterm, ?_,
    GoMap.lookup_store_self _ _ _, ?_⟩
  · rw [hcp1]
  · rw [hcp1]
    exact GoMap.lookup_store_self _ _ _
  · rw [mem_bucket] at hin
    obtain ⟨ft, hft, -⟩ := hin
    exact ⟨ft, hft⟩
  · intro v0 hold hne hmem
    rw [mem_bucket] at hmem
    rcases (hkey _).mp hmem with heq | ⟨-, hno⟩
    · simp only [Prod.mk.injEq] at heq
      exact hne heq.1
    · exact hno v0 hold rfl
  · intro n' hn'
    rw [hcp1]
    exact GoMap.lookup_store_ne _ _ (Ne.symm hn')
  · intro id hid v
    rw [mem_bucket, mem_bucket]
    constructor
    · intro hmem
      rcases (hkey _).mp hmem with heq | ⟨hold, -⟩
      · simp only [Prod.mk.injEq] at heq
        exact absurd heq.2 hid
      · exact hold
    · intro hmem
      refine (hkey _).mpr (Or.inr ⟨hmem, ?_⟩)
      intro old _ heq
      simp only [Prod.mk.injEq] at heq
      exact hid heq.2
  · intro id hid
    rw [hregs]
    exact GoMap.lookup_store_ne _ _ (Ne.symm hid)

/-- Witness of C4: on the state where C1 has zone = forest, setting
zone = desert on C1 moves it from bucket forest to bucket desert. -/
theorem update_on_change_witness :
    ∃ gs1 cp1, handleSetClientFilterProp stateForest proxyC1Forest
        ⟨nameValue "zone" "desert"⟩ = some (gs1, cp1) ∧
      cp1.attr "zone" = some "desert" ∧
      "C1" ∈ bucket gs1 "zone" "desert" ∧
      "C1" ∉ bucket gs1 "zone" "forest" := by
  obtain ⟨gs1, cp1, h1, -, h3, -, h5, h6, -⟩ :=
    update_on_change stateForest proxyC1Forest ⟨nameValue "zone" "desert"⟩
      ⟨[Field.varStr "desert"]⟩ ⟨[]⟩ "zone" "desert" rfl rfl
  exact ⟨gs1, cp1, h1, h3, h5, h6 "forest" (by decide) (by decide)⟩

/-- The clear handler never writes to the registry or to a proxy in it, for
any state and any proxy: the attribute maps are as before the call. -/
theorem clear_leaves_registry (gs : GateService) (cp : ClientProxy) (packet : Packet) :
    (handleClearClientFilterProps gs cp packet).clientProxies = gs.clientProxies ∧
    (handleClearClientFilterProps gs cp packet).terminating = gs.terminating :=
  ⟨rfl, rfl⟩

/-- The index half of clear: in a state with no orphaned entry, after the
clear handler ran on a registered proxy no bucket holds its identity. -/
theorem clear_removes_index_entries {gs : GateService} {cp : ClientProxy} (packet : Packet)
    (hn : NoOrphan gs) (hreg : gs.clientProxies.lookup cp.clientid = some cp)
    (name val : String) :
    cp.clientid ∉ bucket (handleClearClientFilterProps gs cp packet) name val := by
  intro hmem
  rw [mem_bucket, handleClear_filterTrees, treeMem_foldl_removeOne] at hmem
  obtain ⟨hold, hnot⟩ := hmem
  obtain ⟨c, hc, hattr⟩ := hn name val cp.clientid ((mem_bucket gs name val _).mpr hold)
  rw [hreg] at hc
  cases hc
  exact hnot ⟨GoMap.mem_of_lookup hattr, rfl⟩

/-- C5 at its failing input: C1 is accepted, zone = forest and team = red are
set on it, then a clear-filter-properties message for C1 is handled (the
packet handler runs `handleClearClientFilterProps` on the registered proxy).
Both buckets lose C1, but the attribute map of C1 still holds both pairs. -/
theorem clear_keeps_attribute_map :
    stateTwoProps.clientProxies.lookup "C1"
      = some { clientid := "C1", filterProps := [("zone", "forest"), ("team", "red")] } ∧
    handleClearClientFilterProps stateTwoProps
        { clientid := "C1", filterProps := [("zone", "forest"), ("team", "red")] } ⟨[]⟩
      = scenarioClear stateTwoProps "C1" ∧
    HandleDispatcherClientPacket exampleProto false stateTwoProps 1011 (redirectPacket "C1" [])
      = some (scenarioClear stateTwoProps "C1", []) ∧
    bucket (scenarioClear stateTwoProps "C1") "zone" "forest" = [] ∧
    bucket (scenarioClear stateTwoProps "C1") "team" "red" = [] ∧
    (scenarioClear stateTwoProps "C1").clientProxies.lookup "C1"
      = some { clientid := "C1", filterProps := [("zone", "forest"), ("team", "red")] } := by
  decide

/-- C2 at its failing input: C1 is accepted, zone = forest is set on it, then
its filter properties are cleared.  The state is reachable, the attribute map
of the registered C1 records zone = forest, and C1 is not in bucket forest of
the zone tree. -/
theorem index_consistency_fails_after_clear :
    Reachable exampleProto false (scenarioClear stateForest "C1") ∧
    (scenarioClear stateForest "C1").clientProxies.lookup "C1" = some proxyC1Forest ∧
    proxyC1Forest.attr "zone" = some "forest" ∧
    "C1" ∉ bucket (scenarioClear stateForest "C1") "zone" "forest" :=
  ⟨reachable_scenarioClear "C1" reachable_stateForest, by decide, by decide, by decide⟩

/-- C1 at its failing input: after accept C1, set zone = forest on C1 and
clear on C1, the registered C1 still records zone = forest, and a
call-filtered zone = forest sends the packet to nobody. -/
theorem call_filtered_misses_after_clear :
    Reachable exampleProto false (scenarioClear stateForest "C1") ∧
    (scenarioClear stateForest "C1").clientProxies.lookup "C1" = some proxyC1Forest ∧
    proxyC1Forest.attr "zone" = some "forest" ∧
    handleCallFilteredClientProxies (scenarioClear stateForest "C1")
      ⟨nameValue "zone" "forest"⟩ = some [] ∧
    HandleDispatcherClientPacket exampleProto false (scenarioClear stateForest "C1") 1501
      ⟨nameValue "zone" "forest"⟩ = some (scenarioClear stateForest "C1", []) :=
  ⟨reachable_scenarioClear "C1" reachable_stateForest, by decide, by decide, by decide,
    by decide⟩

/-- C6 (redirect routing). For every message type in the redirect range and
every packet that carries a session tag and a target identity: when the
registry has nothing under the target (also for the set and clear types),
the handler returns with the state as it was and exactly one event, the
disconnect notification for that identity; when a proxy is registered under
the target and the type is neither set nor clear, the handler returns with
the state as it was and exactly one event, the send of the packet to that
proxy. -/
theorem redirect_routing (proto : Proto) (DEBUG_MODE : Bool) (gs : GateService)
    (msgtype sid : Nat) (clientid : ClientID) (packet p1 p2 : Packet)
    (hrange : proto.MT_REDIRECT_TO_GATEPROXY_MSG_TYPE_START ≤ msgtype ∧
      msgtype ≤ proto.MT_REDIRECT_TO_GATEPROXY_MSG_TYPE_STOP)
    (hsid : packet.ReadUint16 = some (sid, p1))
    (hid : p1.ReadClientID = some (clientid, p2)) :
    (gs.clientProxies.lookup clientid = none →
      HandleDispatcherClientPacket proto DEBUG_MODE gs msgtype packet
        = some (gs, [Event.notifyClientDisconnected clientid])) ∧
    (∀ cp, gs.clientProxies.lookup clientid = some cp →
      msgtype ≠ proto.MT_SET_CLIENTPROXY_FILTER_PROP →
      msgtype ≠ proto.MT_CLEAR_CLIENTPROXY_FILTER_PROPS →
      HandleDispatcherClientPacket proto DEBUG_MODE gs msgtype packet
        = some (gs, [Event.sendPacket cp.clientid p2])) := by
  constructor
  · intro hnone
    unfold HandleDispatcherClientPacket
    simp only [hrange, and_self, if_true, hsid, hid, hnone]
  · intro cp hcp hset hclear
    unfold HandleDispatcherClientPacket
    simp only [hrange, and_self, if_true, hsid, hid, hcp, hset, hclear, if_false]

/-- Witness of C6 on the state where only C1 is registered: a set-filter
message for the unknown C9 yields one disconnect notification, a redirect of
type 1002 for C1 is sent to C1; the state is unchanged both times. -/
theorem redirect_routing_witness :
    HandleDispatcherClientPacket exampleProto false stateForest 1010
        (redirectPacket "C9" (nameValue "zone" "forest"))
      = some (stateForest, [Event.notifyClientDisconnected "C9"]) ∧
    HandleDispatcherClientPacket exampleProto false stateForest 1002
        (redirectPacket "C1" [Field.varStr "hello"])
      = some (stateForest, [Event.sendPacket "C1" ⟨[Field.varStr "hello"]⟩]) :=
  ⟨(redirect_routing exampleProto false stateForest 1010 0 "C9"
      (redirectPacket "C9" (nameValue "zone" "forest"))
      ⟨Field.clientID "C9" :: nameValue "zone" "forest"⟩ ⟨nameValue "zone" "forest"⟩
      (by decide) rfl rfl).1 (by decide),
   (redirect_routing exampleProto false stateForest 1002 0 "C1"
      (redirectPacket "C1" [Field.varStr "hello"])
      ⟨[Field.clientID "C1", Field.varStr "hello"]⟩ ⟨[Field.varStr "hello"]⟩
      (by decide) rfl rfl).2 proxyC1Forest (by decide) (by decide) (by decide)⟩

/-- The packet handler never writes the terminating flag. -/
theorem dispatch_terminating {proto : Proto} {DEBUG_MODE : Bool} {gs : GateService}
    {msgtype : Nat} {packet : Packet} {r : GateService × List Event}
    (h : HandleDispatcherClientPacket proto DEBUG_MODE gs msgtype packet = some r) :
    r.1.terminating = gs.terminating := by
  unfold HandleDispatcherClientPacket at h
  by_cases hr : proto.MT_REDIRECT_TO_GATEPROXY_MSG_TYPE_START ≤ msgtype ∧
      msgtype ≤ proto.MT_REDIRECT_TO_GATEPROXY_MSG_TYPE_STOP
  · simp only [hr, and_self, if_true] at h
    cases h1 : packet.ReadUint16 with
    | none => simp [h1] at h
    | some r1 =>
      obtain ⟨sid, p1⟩ := r1
      simp only [h1] at h
      cases h2 : p1.ReadClientID with
      | none => simp [h2] at h
      | some r2 =>
        obtain ⟨clientid, p2⟩ := r2
        simp only [h2] at h
        cases h3 : gs.clientProxies.lookup clientid with
        | none =>
          simp only [h3, Option.some.injEq] at h
          rw [← h]
        | some cp =>
          simp only [h3] at h
          by_cases hs : msgtype = proto.MT_SET_CLIENTPROXY_FILTER_PROP
          · simp only [hs, if_true] at h
            cases h4 : handleSetClientFilterProp gs cp p2 with
            | none => simp [h4] at h
            | some r4 =>
              obtain ⟨gs1, cp1⟩ := r4
              simp only [h4, Option.some.injEq] at h
              obtain ⟨_, _, _, _, -, -, -, -, hterm, -, -⟩ := handleSet_some h4
              rw [← h]
              exact hterm
          · simp only [hs, if_false] at h
            by_cases hc : msgtype = proto.MT_CLEAR_CLIENTPROXY_FILTER_PROPS
            · simp only [hc, if_true, Option.some.injEq] at h
              rw [← h]
              rfl
            · simp only [hc, if_false, Option.some.injEq] at h
              rw [← h]
  · simp only [hr, if_false] at h
    by_cases hf : msgtype = proto.MT_CALL_FILTERED_CLIENTS
    · simp only [hf, if_true] at h
      cases h5 : handleCallFilteredClientProxies gs packet with
      | none => simp [h5] at h
      | some events =>
        simp only [h5, Option.some.injEq] at h
        rw [← h]
    · simp only [hf, if_false, Option.some.injEq] at h
      rw [← h]

/-- C7 (termination refusal). `terminate` sets the terminating flag in every
state.  In every state whose flag is set, `ServeTCPConnection` returns the
state as it was (the registry in particular) with the single event of closing
the connection, so no client-connected notification is sent and the new
identity is not registered; and every operation (accept, close of a proxy,
terminate, the packet handler, the set and clear handlers) leaves the flag
set. -/
theorem termination_refusal (proto : Proto) (DEBUG_MODE : Bool) (gs : GateService)
    (conn : Conn) (clientid : ClientID) (cp : ClientProxy) (msgtype : Nat) (packet : Packet)
    (h : gs.terminating = true) :
    (∀ g : GateService, (terminate g).1.terminating = true) ∧
    ServeTCPConnection gs conn clientid = (gs, [Event.connClose conn]) ∧
    (ServeTCPConnection gs conn clientid).1.terminating = true ∧
    (onClientProxyClose gs cp).1.terminating = true ∧
    (terminate gs).1.terminating = true ∧
    (∀ r, HandleDispatcherClientPacket proto DEBUG_MODE gs msgtype packet = some r →
      r.1.terminating = true) ∧
    (∀ r, handleSetClientFilterProp gs cp packet = some r → r.1.terminating = true) ∧
    (handleClearClientFilterProps gs cp packet).terminating = true := by
  have hserve : ServeTCPConnection gs conn clientid = (gs, [Event.connClose conn]) := by
    unfold ServeTCPConnection
    simp only [h, if_true]
  refine ⟨fun g => rfl, hserve, ?_, h, rfl, ?_, ?_, h⟩
  · rw [hserve]
    exact h
  · intro r hr
    rw [dispatch_terminating hr]
    exact h
  · intro r hr
    obtain ⟨gs1, cp1⟩ := r
    obtain ⟨_, _, _, _, -, -, -, -, hterm, -, -⟩ := handleSet_some hr
    simp only
    rw [hterm]
    exact h

/-- Witness of C7: after `terminate` on the state where C1 is registered, the
connection 7 offered under identity C2 is closed and the state keeps its
registry. -/
theorem termination_refusal_witness :
    (terminate stateForest).1.terminating = true ∧
    ServeTCPConnection (terminate stateForest).1 7 "C2"
      = ((terminate stateForest).1, [Event.connClose 7]) ∧
    (terminate stateForest).1.clientProxies.lookup "C2" = none :=
  have h := termination_refusal exampleProto false (terminate stateForest).1 7 "C2"
    proxyC1Forest 1002 ⟨[]⟩ rfl
  ⟨h.1 stateForest, h.2.1, by decide⟩

/-- C8 (unknown message type). For every message type outside the redirect
range and different from the call-filtered type, the packet handler returns
with the state as it was; its events are the protocol violation report,
followed by the process exit with code 2 exactly when debug mode is on; no
packet is sent to a proxy and nothing to the dispatcher.  With debug mode off
the packet routine goes on to release the packet and to handle the rest of
the queue; with debug mode on it ends at the exit. -/
theorem unknown_message_type (proto : Proto) (DEBUG_MODE : Bool) (gs : GateService)
    (msgtype : Nat) (packet : Packet) (queue : List packetQueueItem)
    (hrange : ¬ (proto.MT_REDIRECT_TO_GATEPROXY_MSG_TYPE_START ≤ msgtype ∧
      msgtype ≤ proto.MT_REDIRECT_TO_GATEPROXY_MSG_TYPE_STOP))
    (hcall : msgtype ≠ proto.MT_CALL_FILTERED_CLIENTS) :
    HandleDispatcherClientPacket proto DEBUG_MODE gs msgtype packet
      = some (gs, Event.panicf msgtype :: (if DEBUG_MODE then [Event.exit 2] else [])) ∧
    HandleDispatcherClientPacket proto false gs msgtype packet
      = some (gs, [Event.panicf msgtype]) ∧
    HandleDispatcherClientPacket proto true gs msgtype packet
      = some (gs, [Event.panicf msgtype, Event.exit 2]) ∧
    handlePacketRoutine proto false gs (⟨msgtype, packet⟩ :: queue)
      = (handlePacketRoutine proto false gs queue).map
          (fun r => (r.1, Event.panicf msgtype :: Event.packetRelease packet :: r.2)) ∧
    handlePacketRoutine proto true gs (⟨msgtype, packet⟩ :: queue)
      = some (gs, [Event.panicf msgtype, Event.exit 2]) := by
  have hgen : ∀ d : Bool, HandleDispatcherClientPacket proto d gs msgtype packet
      = some (gs, Event.panicf msgtype :: (if d then [Event.exit 2] else [])) := by
    intro d
    unfold HandleDispatcherClientPacket
    simp only [hrange, hcall, if_false, gwlog_Panicf, List.singleton_append]
  refine ⟨hgen DEBUG_MODE, by simpa using hgen false, by simpa using hgen true, ?_, ?_⟩
  · rw [handlePacketRoutine]
    simp only [hgen false]
    cases handlePacketRoutine proto false gs queue <;> simp
  · rw [handlePacketRoutine]
    simp [hgen true]

/-- Witness of C8: type 7 is unknown under the example constants; with debug
mode off the routine reports it, releases the packet and then handles the
following redirect for C1. -/
theorem unknown_message_type_witness :
    HandleDispatcherClientPacket exampleProto false stateForest 7 ⟨[]⟩
      = some (stateForest, [Event.panicf 7]) ∧
    HandleDispatcherClientPacket exampleProto true stateForest 7 ⟨[]⟩
      = some (stateForest, [Event.panicf 7, Event.exit 2]) ∧
    handlePacketRoutine exampleProto false stateForest
        [⟨7, ⟨[]⟩⟩, ⟨1002, redirectPacket "C1" []⟩]
      = some (stateForest, [Event.panicf 7, Event.packetRelease ⟨[]⟩,
          Event.sendPacket "C1" ⟨[]⟩, Event.packetRelease (redirectPacket "C1" [])]) :=
  have h := unknown_message_type exampleProto false stateForest 7 ⟨[]⟩
    [⟨1002, redirectPacket "C1" []⟩] (by decide) (by decide)
  ⟨h.2.1, h.2.2.1, h.2.2.2.1.trans (by decide)⟩

end GateService
